import Mathlib

/-!
Verification of the material-predictions repository: a shallow embedding of
the data pipeline shared by the two notebooks (model evaluation and stability
prediction), together with theorems settling the specified properties.

The notebooks under src/ import their working code from `utils.utils`,
`utils.data_manager` and `utils.featurizer`, modules whose source is not part
of the provided tree; definitions for those symbols are modelled from the
specification text and are marked as such in their doc comments.  Everything
the notebooks themselves do (call order, `np.nan_to_num`, the
`pool.map` / `compile_data` result-collection loop) is embedded from the
notebook cells.
-/

namespace MaterialPredictions

/-! ## Grouped k-fold partitioning (claim C1)

`run_k_folds` (imported from `utils.utils`, not under src/) runs grouped
k-fold cross validation: the evaluation notebook passes `groups=dm.groups`,
the per-record group ids, so that integer formulas from the same chemical
system never split across folds. -/

/-- Modelled from the spec: the fold assigned to a group id by the grouped
k-fold split of `run_k_folds` (utils.utils, missing from src/).  The spec says
the split "partitions record indices into k disjoint, group-respecting folds":
each distinct group id is assigned one fold, here by position of the group id
in the deduplicated group list, taken modulo the number of splits. -/
def groupFold (groups : List ℕ) (k : ℕ) (g : ℕ) : ℕ :=
  groups.dedup.indexOf g % k

/-- Modelled from the spec: the fold that the grouped k-fold split of
`run_k_folds` assigns to record index `i` — the fold of the record's group. -/
def foldOf (groups : List ℕ) (k : ℕ) (i : ℕ) : ℕ :=
  groupFold groups k (groups.getD i 0)

/-- Modelled from the spec: fold number `j` of the grouped k-fold split, as a
set of record indices. -/
def fold (groups : List ℕ) (k : ℕ) (j : ℕ) : List ℕ :=
  (List.range groups.length).filter (fun i => foldOf groups k i = j)

/-! ## Binary-to-stability-vector mapping (claim C2)

`dm.binary_to_vec()` (utils.data_manager, missing from src/) converts the two
binary predictions of a compound pair back into the two-slot stability
vector written onto the original record. -/

/-- Modelled from the spec: `binary_to_vec` (utils.data_manager, missing from
src/) looks up the two binary predictions (one per member of the compound
pair) and writes them into a two-slot output column, keeping the original
column order. -/
def binary_to_vec (p : Fin 2 × Fin 2) : List (Fin 2) :=
  [p.1, p.2]

/-- A stability vector: a two-slot vector of binary stability labels. -/
def StabVec : Type := {l : List (Fin 2) // l.length = 2}

/-- `binary_to_vec`, with its (always two-element) result packaged as a
stability vector. -/
def binaryToVecS (p : Fin 2 × Fin 2) : StabVec :=
  ⟨binary_to_vec p, rfl⟩

/-! ## Minority-class oversampling (claim C3)

The evaluation notebook passes `sampling=oversample` to `run_k_folds` and
also calls `oversample` directly on the full index range before fitting the
final model.  `oversample` itself lives in `utils.utils`, missing from
src/. -/

/-- Modelled from the spec: `oversample` (utils.utils, missing from src/)
balances a training partition by resampling the minority class with
replacement until its count matches the majority-class count, keeping the
majority partition as is.  `idx` is the list of training record indices, `y`
the binary stability label of each record, and `sampler` models the random
draws of the resampling (each draw picks a minority position).

`resampled` is the resampling-with-replacement step: `n` draws from `src`,
draw `j` picking position `sampler j` modulo the source length. -/
def resampled (sampler : ℕ → ℕ) (src : List ℕ) (n : ℕ) : List ℕ :=
  (List.range n).map fun j => src.getD (sampler j % src.length) 0

/-- Modelled from the spec: `oversample` (utils.utils, missing from src/)
balances a training partition by resampling the minority class with
replacement until its count matches the majority-class count, keeping the
majority partition as is. -/
def oversample (sampler : ℕ → ℕ) (idx : List ℕ) (y : ℕ → Bool) : List ℕ :=
  let pos := idx.filter y
  let neg := idx.filter fun i => !y i
  if pos.length < neg.length then neg ++ resampled sampler pos neg.length
  else if neg.length < pos.length then pos ++ resampled sampler neg pos.length
  else idx

/-- The majority-class examples of a training partition: the records bearing
the more frequent of the two labels (the whole partition when the classes are
already balanced). -/
def majority (idx : List ℕ) (y : ℕ → Bool) : List ℕ :=
  let pos := idx.filter y
  let neg := idx.filter fun i => !y i
  if pos.length < neg.length then neg
  else if neg.length < pos.length then pos
  else idx

/-! ## Featurization and zero-filling of undefined values (claims C4, C7)

The prediction notebook featurizes with `f.featurize(dm.data)` and then
applies `np.nan_to_num` to the featurized matrix before `model.predict` uses
it.  Undefined source values (such as the electronegativity of a noble gas)
surface as NaN entries; they are embedded here as `none`. -/

/-- An element symbol. -/
abbrev Element := String

/-- A composition: element symbols paired with integer amounts, as produced
by converting the two element columns to an integer chemical formula. -/
abbrev Composition := List (Element × ℕ)

/-- An elemental-property source table: for property id `p` and element `e`,
the tabulated value, or `none` when the source value is undefined (e.g. the
electronegativity of a noble gas). -/
abbrev PropTable := ℕ → Element → Option ℚ

/-- Ambient per-run state (random seed, wall clock) that a featurization run
could in principle observe; used to state run-to-run determinism. -/
structure RunEnv where
  seed : ℕ
  clock : ℕ

/-- Modelled from the spec: the raw value of composition feature `fid` on a
composition — an amount-weighted combination of the per-element source
values, undefined (NaN) as soon as any constituent source value is
undefined. -/
def rawFeature (table : PropTable) (fid : ℕ) (c : Composition) : Option ℚ :=
  if c.all fun e => (table fid e.1).isSome then
    some ((c.map fun e => (e.2 : ℚ) * (table fid e.1).getD 0).sum)
  else none

/-- Modelled from the spec: `Featurizer.featurize` (utils.featurizer, missing
from src/) applies the configured composition-feature set row-wise, producing
a fixed-width numeric matrix whose entries may be undefined (NaN).  The
ambient run state `env` is never consulted. -/
def featurize (table : PropTable) (featureSet : List ℕ) (env : RunEnv)
    (rows : List Composition) : List (List (Option ℚ)) :=
  rows.map fun c => featureSet.map fun fid => rawFeature table fid c

/-- Embeds `np.nan_to_num` as the prediction notebook applies it
(src/unnamed/part_000): every NaN entry of the featurized matrix becomes 0,
every defined entry is kept. -/
def nan_to_num (m : List (List (Option ℚ))) : List (List ℚ) :=
  m.map fun row => row.map fun x => x.getD 0

/-- The featurized data actually used downstream: the prediction notebook
reassigns `dm.featurized_data = np.nan_to_num(dm.featurized_data)` right
after featurization, so `model.predict` consumes the zero-filled matrix. -/
def featurizedForUse (table : PropTable) (featureSet : List ℕ) (env : RunEnv)
    (rows : List Composition) : List (List ℚ) :=
  nan_to_num (featurize table featureSet env rows)

/-- Entry `(i, j)` of a matrix, as an `Option` that is `none` off bounds. -/
def entry? {α : Type} (m : List (List α)) (i j : ℕ) : Option α :=
  (m.getD i [])[j]?

/-- A property table for exercising the pipeline on a noble gas: every
source value is defined except those of helium, which are undefined, the way
electronegativity is undefined for noble gases. -/
def nobleTable : PropTable := fun _ e => if e == "He" then none else some 1

/-! ## Validation and the prediction pipeline (claims C5, C9)

The prediction notebook (src/unnamed/part_000) runs, in order:
`dm.load()`, `dm.validate_data()`, `dm.convert_inputs()`,
`dm.get_pymatgen_composition()`, `f.featurize` + `np.nan_to_num`,
`model.predict`, `dm.binary_to_vec()` and `to_csv`.  There is no
`remove_noble_gasses` step in this notebook; that method is invoked only in
the evaluation notebook.  The `DataManager` methods live in
`utils.data_manager`, missing from src/, and are modelled from the spec. -/

/-- Modelled from the spec: a row of the input table is well formed when it
has the two element-symbol columns plus an output column, and both element
symbols are valid according to the third-party composition library, which is
abstracted as the predicate `validElem`. -/
def wellFormedRow (validElem : Element → Bool) (r : List String) : Bool :=
  decide (2 ≤ r.length) && validElem (r.getD 0 "") && validElem (r.getD 1 "")

/-- The message with which validation halts the run. -/
def invalidMsg : String := "invalid element symbol or malformed row"

/-- Modelled from the spec: `validate_data` (utils.data_manager, missing from
src/) checks every input row and raises immediately on an invalid element
symbol or a malformed row; there is no retry or recovery path.  Raising is
embedded as returning `Except.error`. -/
def validate_data (validElem : Element → Bool) (rows : List (List String)) :
    Except String (List (List String)) :=
  if rows.all (wellFormedRow validElem) then Except.ok rows
  else Except.error invalidMsg

/-- Modelled from the spec: `convert_inputs` + `get_pymatgen_composition`
(utils.data_manager, missing from src/) convert the two element columns of
every row, row-wise, into a binary-compound composition object. -/
def convert_inputs (rows : List (List String)) : List Composition :=
  rows.map fun r => [(r.getD 0 "", 1), (r.getD 1 "", 1)]

/-- Embeds the prediction cell of src/unnamed/part_000: the deserialized
model (an opaque classifier, abstracted as a function from feature vector to
binary label) is applied row-wise to the featurized matrix. -/
def predict (model : List ℚ → Fin 2) (feats : List (List ℚ)) : List (Fin 2) :=
  feats.map model

/-- The labeled output table written by the prediction notebook: each
original record paired with its stability prediction. -/
def labeled (rows : List (List String)) (preds : List (Fin 2)) :
    List (List String × Fin 2) :=
  rows.zip preds

/-- The prediction pipeline of src/unnamed/part_000, in the notebook's cell
order: validate, convert, featurize, zero-fill, predict, label.  A
validation failure halts the run with no output; no row-removal step exists
in this pipeline. -/
def predictPipeline (validElem : Element → Bool) (table : PropTable)
    (featureSet : List ℕ) (env : RunEnv) (model : List ℚ → Fin 2)
    (rows : List (List String)) : Except String (List (List String × Fin 2)) :=
  match validate_data validElem rows with
  | Except.error e => Except.error e
  | Except.ok v =>
      Except.ok (labeled v (predict model
        (featurizedForUse table featureSet env (convert_inputs v))))

/-! ## Cross-validation result aggregation (claims C6, C10)

The evaluation notebook collects one `Result` per model from
`pool.map(k_folds, models)` and builds the results table with
`compiled.extend(compile_data(result))` for each result in order.  `Result`
and `compile_data` live in `utils.utils`, missing from src/. -/

/-- Modelled from the spec: the `Result` object (utils.utils, missing from
src/) that `run_k_folds` returns for one candidate model — the model name,
the training-data size, and one score per fold for each of the four metrics
accuracy, F1, recall and precision. -/
structure Result where
  modelName : String
  dataSize : ℕ
  accuracy : List ℚ
  f1 : List ℚ
  recallScores : List ℚ
  precision : List ℚ

/-- The mean of a list of per-fold scores. -/
def mean (xs : List ℚ) : ℚ :=
  xs.sum / xs.length

/-- The population variance of a list of per-fold scores, the quantity whose
square root `np.std` reports. -/
def variance (xs : List ℚ) : ℚ :=
  ((xs.map fun x => (x - mean xs) ^ 2).sum) / xs.length

/-- The standard deviation of a list of per-fold scores, as `np.std`
computes it. -/
noncomputable def std (xs : List ℚ) : ℝ :=
  Real.sqrt ((variance xs : ℚ) : ℝ)

/-- One row of the compiled results table, matching `report_column_labels`
of the evaluation notebook: type, data_size, then mean and standard
deviation for each of the four metrics. -/
structure CompiledRow where
  modelName : String
  dataSize : ℕ
  accuracy : ℚ
  accuracyStd : ℝ
  f1 : ℚ
  f1Std : ℝ
  recallMean : ℚ
  recallStd : ℝ
  precision : ℚ
  precisionStd : ℝ

/-- Modelled from the spec: the single results-table row that `compile_data`
(utils.utils, missing from src/) derives from one model's cross-validation
result — the mean and standard deviation of each metric across folds. -/
noncomputable def compile_row (r : Result) : CompiledRow :=
  { modelName := r.modelName
    dataSize := r.dataSize
    accuracy := mean r.accuracy
    accuracyStd := std r.accuracy
    f1 := mean r.f1
    f1Std := std r.f1
    recallMean := mean r.recallScores
    recallStd := std r.recallScores
    precision := mean r.precision
    precisionStd := std r.precision }

/-- Modelled from the spec: `compile_data` (utils.utils, missing from src/)
returns the list of result-table rows for one model's result, which the
notebook appends with `compiled.extend(compile_data(result))`; without the
data-ramp option this is the single aggregated row. -/
noncomputable def compile_data (r : Result) : List CompiledRow :=
  [compile_row r]

/-- What it means for a reported pair to be the mean and the standard
deviation of a list of per-fold scores: the mean times the fold count gives
back the total, and the reported deviation is the nonnegative real whose
square is the average squared distance of the scores from the mean. -/
def reportsStats (scores : List ℚ) (m : ℚ) (s : ℝ) : Prop :=
  m * scores.length = scores.sum ∧ 0 ≤ s ∧
  s ^ 2 = (((scores.map fun x => (x - m) ^ 2).sum / scores.length : ℚ) : ℝ)

/-- Embeds `pool.map(k_folds, models)` from the evaluation notebook:
`multiprocessing.Pool.map` dispatches one task per model and returns one
result per model, in submission order. -/
def pool_map {α β : Type} (f : α → β) (xs : List α) : List β :=
  xs.map f

/-- Embeds the result-collection loop of the evaluation notebook: the
compiled table is the concatenation, in order, of `compile_data` of each
result returned by `pool.map`. -/
noncomputable def resultsTable {μ : Type} (evalModel : μ → Result)
    (models : List μ) : List CompiledRow :=
  (pool_map evalModel models).flatMap compile_data

/-- A concrete cross-validation result used to witness the aggregation
theorems. -/
def exampleResult : Result :=
  { modelName := "GaussianNB"
    dataSize := 871
    accuracy := [0, 1]
    f1 := [0, 1]
    recallScores := [1, 1]
    precision := [0, 0] }

/-! ### Theorems for C1 -/

/-- C1: for every input dataset (list of per-record group ids), every group
id, and any fold count ≥ 2, the grouped k-fold partition places all records
sharing a group id into the same fold, and the folds are a partition: every
record index lies in exactly the fold `foldOf` assigns it, so two records of
one group co-occur in exactly one fold and are never split across folds. -/
theorem grouped_kfold_keeps_groups_together (groups : List ℕ) (k : ℕ)
    (hk : 2 ≤ k) :
    (∀ i j, i < groups.length → j < groups.length →
      groups.getD i 0 = groups.getD j 0 →
      foldOf groups k i = foldOf groups k j) ∧
    (∀ i, i < groups.length →
      ∀ j, (i ∈ fold groups k j ↔ j = foldOf groups k i)) := by
  constructor
  · intro i j _ _ hg
    unfold foldOf
    rw [hg]
  · intro i hi j
    unfold fold
    simp [List.mem_filter, List.mem_range, hi, eq_comm]

/-- Witness for C1, which is also the end-to-end scenario from the spec: 4
records forming 2 compound-pair groups (group ids [0,0,1,1]), split into 2
grouped folds.  Records 0 and 1 (group 0) land in the same fold, and the two
folds are exactly {0,1} and {2,3}: each group's two rows co-occur in exactly
one fold, never split. -/
theorem grouped_kfold_keeps_groups_together_witness :
    foldOf [0, 0, 1, 1] 2 0 = foldOf [0, 0, 1, 1] 2 1 ∧
    fold [0, 0, 1, 1] 2 0 = [0, 1] ∧ fold [0, 0, 1, 1] 2 1 = [2, 3] :=
  ⟨(grouped_kfold_keeps_groups_together [0, 0, 1, 1] 2 (by decide)).1
      0 1 (by decide) (by decide) (by decide),
    by decide, by decide⟩

/-! ### Theorems for C2 -/

/-- C2: for every pair of binary predictions for a compound pair,
`binary_to_vec` yields a two-element stability vector whose entries equal the
two original predictions in original column order, and the induced map from
prediction pairs to stability vectors is a bijection. -/
theorem binary_to_vec_entries_and_bijective :
    (∀ p : Fin 2 × Fin 2, (binary_to_vec p).length = 2 ∧
      (binary_to_vec p).getD 0 0 = p.1 ∧ (binary_to_vec p).getD 1 0 = p.2) ∧
    Function.Bijective binaryToVecS := by
  refine ⟨fun p => ⟨rfl, rfl, rfl⟩, ?_, ?_⟩
  · intro p q h
    have h1 : (binaryToVecS p).val = (binaryToVecS q).val := by rw [h]
    simp only [binaryToVecS, binary_to_vec, List.cons.injEq] at h1
    exact Prod.ext h1.1 h1.2.1
  · intro v
    obtain ⟨l, hl⟩ := v
    obtain ⟨a, b, rfl⟩ := List.length_eq_two.mp hl
    exact ⟨(a, b), rfl⟩

/-! ### Theorems for C3 -/

/-- Every element drawn by the resampling step is a member of the list it is
drawn from. -/
theorem resampled_mem {sampler : ℕ → ℕ} {src : List ℕ} (h : 0 < src.length)
    {n : ℕ} : ∀ a ∈ resampled sampler src n, a ∈ src := by
  intro a ha
  obtain ⟨j, _, rfl⟩ := List.mem_map.mp ha
  have hn : sampler j % src.length < src.length := Nat.mod_lt _ h
  rw [List.getD_eq_getElem src 0 hn]
  exact List.getElem_mem hn

/-- The resampling step draws exactly `n` elements. -/
theorem resampled_length (sampler : ℕ → ℕ) (src : List ℕ) (n : ℕ) :
    (resampled sampler src n).length = n := by
  simp [resampled]

/-- C3: for every training partition with at least one example of each
class, `oversample` returns a partition whose minority-class count equals
its majority-class count exactly, and the returned partition contains every
original majority-class example. -/
theorem oversample_balances (sampler : ℕ → ℕ) (idx : List ℕ) (y : ℕ → Bool)
    (hpos : 0 < (idx.filter y).length)
    (hneg : 0 < (idx.filter fun i => !y i).length) :
    (oversample sampler idx y).countP y =
      (oversample sampler idx y).countP (fun i => !y i) ∧
    ∀ i ∈ majority idx y, i ∈ oversample sampler idx y := by
  simp only [oversample, majority]
  rcases lt_trichotomy (idx.filter y).length (idx.filter fun i => !y i).length
    with h1 | h1 | h1
  · rw [if_pos h1, if_pos h1]
    refine ⟨?_, fun i hi => List.mem_append_left _ hi⟩
    rw [List.countP_append, List.countP_append]
    have m1 : ∀ a ∈ idx.filter (fun i => !y i), y a = false := by
      intro a ha
      have h2 := (List.mem_filter.mp ha).2
      simpa using h2
    have m2 : ∀ a ∈ resampled sampler (idx.filter y)
        (idx.filter fun i => !y i).length, y a = true := fun a ha =>
      (List.mem_filter.mp (resampled_mem hpos a ha)).2
    have c1 : (idx.filter fun i => !y i).countP y = 0 :=
      List.countP_eq_zero.mpr fun a ha => by simp [m1 a ha]
    have c2 : (resampled sampler (idx.filter y)
        (idx.filter fun i => !y i).length).countP y =
        (resampled sampler (idx.filter y)
          (idx.filter fun i => !y i).length).length :=
      List.countP_eq_length.mpr m2
    have c3 : (idx.filter fun i => !y i).countP (fun i => !y i) =
        (idx.filter fun i => !y i).length :=
      List.countP_eq_length.mpr fun a ha => (List.mem_filter.mp ha).2
    have c4 : (resampled sampler (idx.filter y)
        (idx.filter fun i => !y i).length).countP (fun i => !y i) = 0 :=
      List.countP_eq_zero.mpr fun a ha => by simp [m2 a ha]
    rw [c1, c2, c3, c4, resampled_length]
    omega
  · rw [if_neg (by omega), if_neg (by omega), if_neg (by omega),
      if_neg (by omega)]
    refine ⟨?_, fun i hi => hi⟩
    rw [List.countP_eq_length_filter, List.countP_eq_length_filter, h1]
  · rw [if_neg (by omega), if_pos h1, if_neg (by omega), if_pos h1]
    refine ⟨?_, fun i hi => List.mem_append_left _ hi⟩
    rw [List.countP_append, List.countP_append]
    have m1 : ∀ a ∈ idx.filter y, y a = true := fun a ha =>
      (List.mem_filter.mp ha).2
    have m2 : ∀ a ∈ resampled sampler (idx.filter fun i => !y i)
        (idx.filter y).length, y a = false := by
      intro a ha
      have h2 := (List.mem_filter.mp (resampled_mem hneg a ha)).2
      simpa using h2
    have c1 : (idx.filter y).countP y = (idx.filter y).length :=
      List.countP_eq_length.mpr m1
    have c2 : (resampled sampler (idx.filter fun i => !y i)
        (idx.filter y).length).countP y = 0 :=
      List.countP_eq_zero.mpr fun a ha => by simp [m2 a ha]
    have c3 : (idx.filter y).countP (fun i => !y i) = 0 :=
      List.countP_eq_zero.mpr fun a ha => by simp [m1 a ha]
    have c4 : (resampled sampler (idx.filter fun i => !y i)
        (idx.filter y).length).countP (fun i => !y i) =
        (resampled sampler (idx.filter fun i => !y i)
          (idx.filter y).length).length :=
      List.countP_eq_length.mpr fun a ha => by simp [m2 a ha]
    rw [c1, c2, c3, c4, resampled_length]
    omega

/-- Witness for C3: the partition with indices [0, 1, 2] and labels making
record 0 the single minority example is balanced by oversampling, and both
majority examples 1 and 2 survive. -/
theorem oversample_balances_witness :
    ((oversample id [0, 1, 2] fun i => i == 0).countP (fun i => i == 0) =
      (oversample id [0, 1, 2] fun i => i == 0).countP
        (fun i => !(i == 0 : Bool))) ∧
    ∀ i ∈ majority [0, 1, 2] (fun i => i == 0),
      i ∈ oversample id [0, 1, 2] fun i => i == 0 :=
  oversample_balances id [0, 1, 2] (fun i => i == 0) (by decide) (by decide)

/-! ### Theorems for C4 -/

/-- Zero-filling acts entrywise: entry `(i, j)` of the zero-filled matrix is
entry `(i, j)` of the raw matrix with `none` replaced by 0. -/
theorem entry?_nan_to_num (m : List (List (Option ℚ))) (i j : ℕ) :
    entry? (nan_to_num m) i j = (entry? m i j).map fun x => x.getD 0 := by
  unfold entry? nan_to_num
  rcases Nat.lt_or_ge i m.length with h | h
  · rw [List.getD_eq_getElem _ _ (by simpa using h), List.getD_eq_getElem _ _ h,
      List.getElem_map, List.getElem?_map]
  · rw [List.getD_eq_default _ _ (by simpa using h), List.getD_eq_default _ _ h]
    simp

/-- C4: undefined numeric feature values produced during featurization are
not treated as errors: in the prediction pipeline every undefined (NaN)
entry of the featurized matrix is replaced with zero before downstream use,
every defined entry is kept unchanged, and no row is lost. -/
theorem nan_to_num_zero_fills (table : PropTable) (featureSet : List ℕ)
    (env : RunEnv) (rows : List Composition) (i j : ℕ) :
    (featurizedForUse table featureSet env rows).length =
      (featurize table featureSet env rows).length ∧
    (entry? (featurize table featureSet env rows) i j = some none →
      entry? (featurizedForUse table featureSet env rows) i j = some 0) ∧
    (∀ q : ℚ, entry? (featurize table featureSet env rows) i j = some (some q) →
      entry? (featurizedForUse table featureSet env rows) i j = some q) := by
  refine ⟨by simp [featurizedForUse, nan_to_num], ?_, ?_⟩
  · intro h
    unfold featurizedForUse
    rw [entry?_nan_to_num, h]
    rfl
  · intro q h
    unfold featurizedForUse
    rw [entry?_nan_to_num, h]
    rfl

/-- Witness for C4: featurizing a single helium composition against a table
in which helium values are undefined produces an undefined entry, and the
pipeline delivers it downstream as 0. -/
theorem nan_to_num_zero_fills_witness :
    entry? (featurizedForUse nobleTable [0] ⟨0, 0⟩ [[("He", 1)]]) 0 0 =
      some 0 :=
  (nan_to_num_zero_fills nobleTable [0] ⟨0, 0⟩ [[("He", 1)]] 0 0).2.1 (by rfl)

/-! ### Theorems for C5 -/

/-- C5: an input table containing an invalid element symbol or a malformed
row makes validation raise immediately, and the whole prediction pipeline
halts with that error: there is no retry or recovery path and no output is
produced for such an input. -/
theorem validate_data_halts (validElem : Element → Bool) (table : PropTable)
    (featureSet : List ℕ) (env : RunEnv) (model : List ℚ → Fin 2)
    (rows : List (List String))
    (h : ∃ r ∈ rows, wellFormedRow validElem r = false) :
    validate_data validElem rows = Except.error invalidMsg ∧
    predictPipeline validElem table featureSet env model rows =
      Except.error invalidMsg := by
  have hall : rows.all (wellFormedRow validElem) = false := by
    rw [List.all_eq_false]
    obtain ⟨r, hr, hf⟩ := h
    exact ⟨r, hr, by simp [hf]⟩
  have hv : validate_data validElem rows = Except.error invalidMsg := by
    unfold validate_data
    rw [hall]
    rfl
  refine ⟨hv, ?_⟩
  unfold predictPipeline
  rw [hv]

/-- Witness for C5: a table whose single row has the invalid element symbol
"J" is rejected by validation, and the pipeline run on it produces an error
and no labeled output. -/
theorem validate_data_halts_witness :
    validate_data (fun s => s == "H") [["J", "H", "1"]] =
      Except.error invalidMsg ∧
    predictPipeline (fun s => s == "H") nobleTable [0] ⟨0, 0⟩ (fun _ => 0)
      [["J", "H", "1"]] = Except.error invalidMsg :=
  validate_data_halts (fun s => s == "H") nobleTable [0] ⟨0, 0⟩ (fun _ => 0)
    [["J", "H", "1"]] ⟨["J", "H", "1"], by simp, by decide⟩

/-! ### Theorems for C6 -/

/-- The population variance of a score list is nonnegative. -/
theorem variance_nonneg (xs : List ℚ) : 0 ≤ variance xs := by
  unfold variance
  apply div_nonneg
  · apply List.sum_nonneg
    intro x hx
    obtain ⟨a, _, rfl⟩ := List.mem_map.mp hx
    positivity
  · exact_mod_cast Nat.zero_le _

/-- The mean of a score list, times the number of folds, is the score
total. -/
theorem mean_mul_length (xs : List ℚ) : mean xs * xs.length = xs.sum := by
  unfold mean
  rcases eq_or_ne xs [] with rfl | h
  · simp
  · have hne : (xs.length : ℚ) ≠ 0 := by
      exact_mod_cast Nat.pos_iff_ne_zero.mp (List.length_pos.mpr h)
    exact div_mul_cancel₀ xs.sum hne

/-- `mean` and `std` satisfy the defining properties of the mean and the
standard deviation of a score list. -/
theorem reportsStats_mean_std (xs : List ℚ) :
    reportsStats xs (mean xs) (std xs) := by
  refine ⟨mean_mul_length xs, Real.sqrt_nonneg _, ?_⟩
  unfold std
  rw [Real.sq_sqrt (by exact_mod_cast variance_nonneg xs)]
  unfold variance
  rfl

/-- C6: every row that `compile_data` emits for a candidate model's
cross-validation result reports, for each of the four metrics accuracy, F1,
recall and precision, the mean and the standard deviation of that metric's
per-fold scores across all folds, next to the model's name and data size. -/
theorem compile_data_reports_mean_std (r : Result) :
    ∀ row ∈ compile_data r,
      row.modelName = r.modelName ∧ row.dataSize = r.dataSize ∧
      reportsStats r.accuracy row.accuracy row.accuracyStd ∧
      reportsStats r.f1 row.f1 row.f1Std ∧
      reportsStats r.recallScores row.recallMean row.recallStd ∧
      reportsStats r.precision row.precision row.precisionStd := by
  intro row hrow
  have hr : row = compile_row r := by
    simpa [compile_data] using hrow
  subst hr
  exact ⟨rfl, rfl, reportsStats_mean_std _, reportsStats_mean_std _,
    reportsStats_mean_std _, reportsStats_mean_std _⟩

/-- Witness for C6: the compiled row of a concrete two-fold result carries
the mean and standard deviation of each metric's two fold scores. -/
theorem compile_data_reports_mean_std_witness :
    (compile_row exampleResult).modelName = exampleResult.modelName ∧
    (compile_row exampleResult).dataSize = exampleResult.dataSize ∧
    reportsStats exampleResult.accuracy (compile_row exampleResult).accuracy
      (compile_row exampleResult).accuracyStd ∧
    reportsStats exampleResult.f1 (compile_row exampleResult).f1
      (compile_row exampleResult).f1Std ∧
    reportsStats exampleResult.recallScores
      (compile_row exampleResult).recallMean
      (compile_row exampleResult).recallStd ∧
    reportsStats exampleResult.precision
      (compile_row exampleResult).precision
      (compile_row exampleResult).precisionStd :=
  compile_data_reports_mean_std exampleResult (compile_row exampleResult)
    (by simp [compile_data])

/-! ### Theorems for C7 -/

/-- In-bounds entries of the raw featurized matrix are the raw feature
values of the corresponding row and feature id. -/
theorem entry?_featurize (table : PropTable) (featureSet : List ℕ)
    (env : RunEnv) (rows : List Composition) {i j : ℕ}
    (hi : i < rows.length) (hj : j < featureSet.length) :
    entry? (featurize table featureSet env rows) i j =
      some (rawFeature table (featureSet.getD j 0) (rows.getD i [])) := by
  unfold entry? featurize
  rw [List.getD_eq_getElem _ _ (by simpa using hi), List.getElem_map,
    List.getElem?_map, List.getElem?_eq_getElem hj,
    List.getD_eq_getElem rows [] hi, List.getD_eq_getElem featureSet 0 hj]
  rfl

/-- C7: featurization is deterministic: with the same property table,
feature-set configuration and input rows, two runs in different ambient
states (seed, clock) produce identical raw and zero-filled feature matrices;
and every entry whose source value is undefined is mapped to zero in the
matrix the pipeline uses. -/
theorem featurize_deterministic (table : PropTable) (featureSet : List ℕ)
    (rows : List Composition) (env1 env2 : RunEnv) :
    featurize table featureSet env1 rows =
      featurize table featureSet env2 rows ∧
    featurizedForUse table featureSet env1 rows =
      featurizedForUse table featureSet env2 rows ∧
    ∀ i j, i < rows.length → j < featureSet.length →
      rawFeature table (featureSet.getD j 0) (rows.getD i []) = none →
      entry? (featurizedForUse table featureSet env1 rows) i j = some 0 := by
  refine ⟨rfl, rfl, ?_⟩
  intro i j hi hj h
  unfold featurizedForUse
  rw [entry?_nan_to_num, entry?_featurize table featureSet env1 rows hi hj, h]
  rfl

/-- Witness for C7: featurizing one dihelium composition with feature set
[0, 1] gives the same matrices in two different run states, and the
undefined helium entry at position (0, 1) is delivered as 0. -/
theorem featurize_deterministic_witness :
    featurize nobleTable [0, 1] ⟨1, 2⟩ [[("He", 2)]] =
      featurize nobleTable [0, 1] ⟨3, 4⟩ [[("He", 2)]] ∧
    featurizedForUse nobleTable [0, 1] ⟨1, 2⟩ [[("He", 2)]] =
      featurizedForUse nobleTable [0, 1] ⟨3, 4⟩ [[("He", 2)]] ∧
    entry? (featurizedForUse nobleTable [0, 1] ⟨1, 2⟩ [[("He", 2)]]) 0 1 =
      some 0 := by
  obtain ⟨h1, h2, h3⟩ :=
    featurize_deterministic nobleTable [0, 1] [[("He", 2)]] ⟨1, 2⟩ ⟨3, 4⟩
  exact ⟨h1, h2, h3 0 1 (by decide) (by decide) (by rfl)⟩

/-! ### Theorems for C9 -/

/-- C9: the prediction pipeline removes no input rows: on any table that
passes validation, the pipeline succeeds, and every loaded row — including
rows whose elements are noble gases, since this pipeline has no
`remove_noble_gasses` step — is featurized, receives a stability prediction,
and appears in order in the labeled output. -/
theorem predict_pipeline_keeps_all_rows (validElem : Element → Bool)
    (table : PropTable) (featureSet : List ℕ) (env : RunEnv)
    (model : List ℚ → Fin 2) (rows : List (List String))
    (h : rows.all (wellFormedRow validElem) = true) :
    ∃ out, predictPipeline validElem table featureSet env model rows =
        Except.ok out ∧
      out = labeled rows (predict model
        (featurizedForUse table featureSet env (convert_inputs rows))) ∧
      out.length = rows.length ∧
      out.map Prod.fst = rows := by
  have hv : validate_data validElem rows = Except.ok rows := by
    unfold validate_data
    rw [h]
    rfl
  have hlen : (predict model
      (featurizedForUse table featureSet env (convert_inputs rows))).length =
      rows.length := by
    simp [predict, featurizedForUse, nan_to_num, featurize, convert_inputs]
  refine ⟨labeled rows (predict model
    (featurizedForUse table featureSet env (convert_inputs rows))),
    ?_, rfl, ?_, ?_⟩
  · unfold predictPipeline
    rw [hv]
  · simp [labeled, hlen]
  · exact List.map_fst_zip rows _ (le_of_eq hlen.symm)

/-- Witness for C9: a two-row table whose first row is the noble gas helium
passes through the pipeline whole: both rows come out labeled, in order. -/
theorem predict_pipeline_keeps_all_rows_witness :
    ∃ out, predictPipeline (fun s => s == "He" || s == "Li") nobleTable [0]
        ⟨0, 0⟩ (fun _ => 1) [["He", "Li", "x"], ["Li", "Li", "y"]] =
        Except.ok out ∧
      out = labeled [["He", "Li", "x"], ["Li", "Li", "y"]]
        (predict (fun _ => 1) (featurizedForUse nobleTable [0] ⟨0, 0⟩
          (convert_inputs [["He", "Li", "x"], ["Li", "Li", "y"]]))) ∧
      out.length = 2 ∧
      out.map Prod.fst = [["He", "Li", "x"], ["Li", "Li", "y"]] :=
  predict_pipeline_keeps_all_rows (fun s => s == "He" || s == "Li")
    nobleTable [0] ⟨0, 0⟩ (fun _ => 1) [["He", "Li", "x"], ["Li", "Li", "y"]]
    (by decide)

/-! ### Theorems for C10 -/

/-- Flat-mapping a singleton-producing function is mapping. -/
theorem flatMap_single {α β : Type} (g : α → β) :
    ∀ l : List α, (l.flatMap fun x => [g x]) = l.map g
  | [] => rfl
  | a :: t => by
    rw [List.flatMap_cons, List.map_cons, flatMap_single g t]
    rfl

/-- C10: the compiled results table preserves the order of the models list:
it has one row per model, and row `i` holds the compiled metrics of the
model at index `i`, because `pool.map` returns results in submission
order. -/
theorem results_preserve_model_order {μ : Type} (evalModel : μ → Result)
    (models : List μ) (i : ℕ) (hi : i < models.length) :
    (resultsTable evalModel models).length = models.length ∧
    (resultsTable evalModel models)[i]? =
      some (compile_row (evalModel models[i])) := by
  have hr : resultsTable evalModel models =
      models.map fun m => compile_row (evalModel m) := by
    show (models.map evalModel).flatMap (fun r => [compile_row r]) = _
    rw [flatMap_single compile_row (models.map evalModel), List.map_map]
    rfl
  constructor
  · rw [hr]
    simp
  · rw [hr, List.getElem?_map, List.getElem?_eq_getElem hi]
    rfl

/-- Witness for C10: with two submitted models, the compiled table has two
rows and row 1 is the compiled row of model 1's result. -/
theorem results_preserve_model_order_witness :
    (resultsTable (fun _ : ℕ => exampleResult) [5, 7]).length = 2 ∧
    (resultsTable (fun _ : ℕ => exampleResult) [5, 7])[1]? =
      some (compile_row exampleResult) :=
  results_preserve_model_order (fun _ : ℕ => exampleResult) [5, 7] 1
    (by decide)

end MaterialPredictions
